import Mathlib

/-!
# Verification of the grpc-playground streaming-ads protocol

A shallow embedding of the core protocol code:

* `src/cpp/server/ad_generator.cpp` — `AdGenerator::generateAds`,
  `AdGenerator::calculateScore`, `AdGenerator::generateAdId`;
* `src/cpp/client/ads_client.cpp` — `AdsClient::sendContextMessages`,
  `AdsClient::receiveAdsListWithTimeout`;
* `src/cpp/server/ads_service_impl.cpp` — `AdsServiceImpl::GetAds`.

Machine details that the C++ leaves unspecified are abstracted as
parameters:

* `hasher : String → Nat` stands for `std::hash<std::string>`;
* `tw : Nat → Nat → Nat` stands for the raw output stream of a
  `std::mt19937` engine: `tw seed i` is the `i`-th raw draw of an engine
  constructed with `seed`.  Re-seeding with the same seed replays the
  same stream, just as for the real Mersenne twister.

`double` values (scores) are modelled as `ℚ`; wall-clock instants and
durations are modelled in whole milliseconds (`Nat`), matching the
`duration_cast<milliseconds>` comparisons in the client code.
-/

/-- The `Context` protobuf message: `query`, `asin_id`, `understanding`. -/
structure Context where
  query : String
  asinId : String
  understanding : String
deriving DecidableEq, Repr

/-- One `Ad` protobuf message: `asin_id`, `ad_id`, `score`. -/
structure Ad where
  asinId : String
  adId : String
  score : ℚ
deriving DecidableEq, Repr

/-- The `AdsList` protobuf message: `version` plus the ordered ads. -/
structure AdsList where
  version : Nat
  ads : List Ad
deriving DecidableEq, Repr

/-- State of a seeded PRNG engine: the seed it was constructed with and
how many raw draws have been consumed. -/
structure RNG where
  seed : Nat
  pos : Nat
deriving DecidableEq, Repr

/-- One raw draw from the engine (`gen()` in C++), advancing its state. -/
def rngNext (tw : Nat → Nat → Nat) (g : RNG) : Nat × RNG :=
  (tw g.seed g.pos, ⟨g.seed, g.pos + 1⟩)

/-- `std::uniform_int_distribution<>(lo, hi)` applied to the engine,
modelled by its standard-mandated contract: one raw draw mapped into the
closed range `[lo, hi]`. -/
def intDist (tw : Nat → Nat → Nat) (lo hi : Nat) (g : RNG) : Nat × RNG :=
  let p := rngNext tw g
  (lo + p.1 % (hi - lo + 1), p.2)

/-- `std::uniform_real_distribution<>(lo, hi)` applied to the engine:
one raw draw mapped affinely into `[lo, hi]` (granularity 1/1000). -/
def realDist (tw : Nat → Nat → Nat) (lo hi : ℚ) (g : RNG) : ℚ × RNG :=
  let p := rngNext tw g
  (lo + (hi - lo) * ((p.1 % 1000 : Nat) : ℚ) / 1000, p.2)

/-- Decimal rendering of `n` zero-padded to width `w`
(`std::setfill('0') << std::setw(w)`). -/
def padZeros (w : Nat) (n : Nat) : String :=
  let s := toString n
  String.mk (List.replicate (w - s.length) '0') ++ s

/-- `AdGenerator::calculateScore` (ad_generator.cpp:47-67): base score
from `hash(query + asin_id) % 1000`, an understanding boost
`hash(understanding) % 200` when `understanding` is non-empty, a version
multiplier `0.7 + version*0.1`, clamped into `[0,1]`. -/
def calculateScore (hasher : String → Nat) (query asinId understanding : String)
    (version : Nat) : ℚ :=
  let base : ℚ := ((hasher (query ++ asinId) % 1000 : Nat) : ℚ) / 1000
  let boost : ℚ := if understanding = "" then 0
    else ((hasher understanding % 200 : Nat) : ℚ) / 1000
  let mult : ℚ := 7/10 + (version : ℚ) * (1/10)
  max 0 (min 1 ((base + boost) * mult))

/-- `AdGenerator::generateAdId` (ad_generator.cpp:69-77):
`"AD"` followed by `hash(asin_id + to_string(index)) % 100000000`,
zero-padded to 8 digits. -/
def generateAdId (hasher : String → Nat) (asinId : String) (index : Nat) : String :=
  "AD" ++ padZeros 8 (hasher (asinId ++ toString index) % 100000000)

/-- The per-ad loop body of `AdGenerator::generateAds`
(ad_generator.cpp:19-42), generating `k` ads starting at index `i` with
engine state `g`: each ad gets an asin id from
`hash(context.asin_id + to_string(i)) % 1000000`, an ad id derived from
that asin id and the index, and a score
`clamp(calculateScore(...) + variation)` where `variation` is one
`uniform_real_distribution<>(-0.1, 0.1)` draw from the shared engine. -/
def genAdsAux (hasher : String → Nat) (tw : Nat → Nat → Nat) (ctx : Context)
    (version : Nat) : RNG → Nat → Nat → List Ad
  | _, _, 0 => []
  | g, i, k + 1 =>
    let asin := "B" ++ padZeros 6 (hasher (ctx.asinId ++ toString i) % 1000000)
    let adId := generateAdId hasher asin i
    let base := calculateScore hasher ctx.query ctx.asinId ctx.understanding version
    let p := realDist tw (-1/10) (1/10) g
    ⟨asin, adId, max 0 (min 1 (base + p.1))⟩ ::
      genAdsAux hasher tw ctx version p.2 (i + 1) k

/-- `AdGenerator::generateAds` (ad_generator.cpp:7-45): seed an engine
with `hash(query + asin_id + to_string(version))`, draw an ad count in
`[5,10]`, then run the per-ad loop. -/
def generateAds (hasher : String → Nat) (tw : Nat → Nat → Nat) (ctx : Context)
    (version : Nat) : AdsList :=
  let seed := hasher (ctx.query ++ ctx.asinId ++ toString version)
  let p := intDist tw 5 10 ⟨seed, 0⟩
  ⟨version, genAdsAux hasher tw ctx version p.2 0 p.1⟩

/-! ## Client: `AdsClient::sendContextMessages` (ads_client.cpp:57-113) -/

/-- Observable outcome of the client send thread: the Context messages
handed to `stream->Write` in order, and whether `WritesDone` ran. -/
structure SendOutcome where
  attempts : List Context
  signaledDone : Bool
deriving DecidableEq, Repr

/-- `AdsClient::sendContextMessages`: write
`Context₁ = {query, asinId, ""}`; if that write fails, return at once.
Otherwise (after the fixed 50 ms pause) write
`Context₂ = {query, asinId, understanding}`; if that write fails, return
at once.  Otherwise call `WritesDone`.  `writeOk n` is the result of the
`n`-th `stream->Write`. -/
def sendContextMessages (writeOk : Nat → Bool) (query asinId understanding : String) :
    SendOutcome :=
  let c1 : Context := ⟨query, asinId, ""⟩
  if writeOk 0 then
    let c2 : Context := ⟨query, asinId, understanding⟩
    if writeOk 1 then ⟨[c1, c2], true⟩
    else ⟨[c1, c2], false⟩
  else ⟨[c1], false⟩

/-! ## Client: `AdsClient::receiveAdsListWithTimeout` (ads_client.cpp:115-246)

The buffer `std::map<uint32_t, AdsList>` is embedded as an association
list ordered by insertion logic identical to a sorted map: `insertBuf`
replaces the value when the key exists (`adsListBuffer[version] = adsList`),
`maxEntry` is `rbegin()` on the map, i.e. the entry with the greatest key.

The wall clock is a trace of `ReadEvent`s: `time` is the instant (ms
since collection-loop entry) at which that `stream->Read` call returned,
`msg = none` meaning the read failed (stream ended).  The deadline check
at the top of each iteration runs at the instant the previous read
returned (`0` before the first read). -/

/-- One return of `stream->Read` in the collection loop: the instant it
returned and its payload (`none` = stream ended). -/
structure ReadEvent where
  time : Nat
  msg : Option AdsList
deriving DecidableEq, Repr

/-- `adsListBuffer[version] = adsList` on the ordered map: insert keeping
keys sorted, overwriting an existing key. -/
def insertBuf : List (Nat × AdsList) → Nat → AdsList → List (Nat × AdsList)
  | [], v, a => [(v, a)]
  | (k, x) :: rest, v, a =>
    if v < k then (v, a) :: (k, x) :: rest
    else if v = k then (v, a) :: rest
    else (k, x) :: insertBuf rest v a

/-- `adsListBuffer.find(version)` as a lookup. -/
def lookupBuf : List (Nat × AdsList) → Nat → Option AdsList
  | [], _ => none
  | (k, x) :: rest, v => if v = k then some x else lookupBuf rest v

/-- `adsListBuffer.rbegin()`: the entry with the greatest version key. -/
def maxEntry : List (Nat × AdsList) → Option (Nat × AdsList)
  | [] => none
  | p :: rest =>
    some (match maxEntry rest with
      | none => p
      | some q => if p.1 < q.1 then q else p)

/-- The `while (true)` loop of `receiveAdsListWithTimeout`
(ads_client.cpp:133-196): at instant `now`, if the elapsed time has
reached the timeout, stop with the current buffer; otherwise block in
`stream->Read` — if it fails, stop; if it yields an `AdsList`, insert it
by version and loop at the instant that read returned. -/
def collectLoop (timeoutMs : Nat) : Nat → List (Nat × AdsList) → List ReadEvent →
    List (Nat × AdsList)
  | _, buf, [] => buf
  | now, buf, e :: rest =>
    if timeoutMs ≤ now then buf
    else
      match e.msg with
      | none => buf
      | some a => collectLoop timeoutMs e.time (insertBuf buf a.version a) rest

/-- The payloads the collection loop actually reads before it stops
(same control flow as `collectLoop`, recording messages instead of
building the buffer). -/
def collectedMsgs (timeoutMs : Nat) : Nat → List ReadEvent → List AdsList
  | _, [] => []
  | now, e :: rest =>
    if timeoutMs ≤ now then []
    else
      match e.msg with
      | none => []
      | some a => a :: collectedMsgs timeoutMs e.time rest

/-- `return AdsList();` (ads_client.cpp:244): protobuf default —
version 0, no ads. -/
def emptyResult : AdsList := ⟨0, []⟩

/-- `AdsClient::receiveAdsListWithTimeout`: run the collection loop on
the read trace, then return the buffered entry with the highest version,
or the default `AdsList` when the buffer is empty. -/
def receiveAdsListWithTimeout (timeoutMs : Nat) (events : List ReadEvent) : AdsList :=
  match maxEntry (collectLoop timeoutMs 0 [] events) with
  | some p => p.2
  | none => emptyResult

/-! ## Server: `AdsServiceImpl::GetAds` (ads_service_impl.cpp:11-191) -/

/-- Observable sends of one server session: the synchronous
`stream->Write` calls in program order (tagged with their version), and
the write made by the detached version-3 thread, if one was scheduled. -/
structure ServerRun where
  sends : List (Nat × AdsList)
  deferred : Option (Nat × AdsList)
deriving DecidableEq, Repr

/-- `AdsServiceImpl::GetAds`: read Contexts in a loop; on the first,
generate and write version 1; on the second, generate and write
version 2, spawn the detached thread that (after 50 ms) generates and
writes version 3 from the same second Context, and `break` — later
Contexts are never read.  `received` is the list of Contexts the reads
yield in order; `writeOk n` is the result of the `n`-th synchronous
`stream->Write`, which the source discards (lines 56, 88, 129), so the
run does not depend on it. -/
def serverGetAds (hasher : String → Nat) (tw : Nat → Nat → Nat)
    (writeOk : Nat → Bool) (received : List Context) : ServerRun :=
  match received with
  | [] => ⟨[], none⟩
  | [c1] => ⟨[(1, generateAds hasher tw c1 1)], none⟩
  | c1 :: c2 :: _ =>
    ⟨[(1, generateAds hasher tw c1 1), (2, generateAds hasher tw c2 2)],
      some (3, generateAds hasher tw c2 3)⟩

/-- The versions one session sends, in wall-clock send order: the
synchronous writes in program order, then the deferred write (it sleeps
50 ms after being spawned, which is after the version-2 write). -/
def sentVersions (r : ServerRun) : List Nat :=
  r.sends.map Prod.fst ++ (match r.deferred with
    | some p => [p.1]
    | none => [])

/-! ## Buffer lemmas -/

theorem insertBuf_mem {b : List (Nat × AdsList)} {v : Nat} {a : AdsList}
    {p : Nat × AdsList} (h : p ∈ insertBuf b v a) : p ∈ b ∨ p = (v, a) := by
  induction b with
  | nil =>
    simp only [insertBuf, List.mem_singleton] at h
    exact Or.inr h
  | cons hd tl ih =>
    obtain ⟨k, x⟩ := hd
    simp only [insertBuf] at h
    split_ifs at h with h1 h2
    · rcases List.mem_cons.mp h with h' | h'
      · exact Or.inr h'
      · exact Or.inl h'
    · rcases List.mem_cons.mp h with h' | h'
      · exact Or.inr h'
      · exact Or.inl (List.mem_cons_of_mem _ h')
    · rcases List.mem_cons.mp h with h' | h'
      · exact Or.inl (h' ▸ List.mem_cons_self _ _)
      · rcases ih h' with h'' | h''
        · exact Or.inl (List.mem_cons_of_mem _ h'')
        · exact Or.inr h''

theorem insertBuf_idem (b : List (Nat × AdsList)) (v : Nat) (a : AdsList) :
    insertBuf (insertBuf b v a) v a = insertBuf b v a := by
  induction b with
  | nil => simp [insertBuf]
  | cons hd tl ih =>
    obtain ⟨k, x⟩ := hd
    by_cases h1 : v < k
    · simp [insertBuf, h1]
    · by_cases h2 : v = k
      · simp [insertBuf, h1, h2]
      · simp [insertBuf, h1, h2, ih]

theorem insertBuf_lookup (b : List (Nat × AdsList)) (v : Nat) (a : AdsList) :
    lookupBuf (insertBuf b v a) v = some a := by
  induction b with
  | nil => simp [insertBuf, lookupBuf]
  | cons hd tl ih =>
    obtain ⟨k, x⟩ := hd
    by_cases h1 : v < k
    · simp [insertBuf, h1, lookupBuf]
    · by_cases h2 : v = k
      · simp [insertBuf, h1, h2, lookupBuf]
      · simp [insertBuf, h1, h2, lookupBuf, ih]

theorem maxEntry_eq_none {b : List (Nat × AdsList)} (h : maxEntry b = none) :
    b = [] := by
  cases b with
  | nil => rfl
  | cons p rest => simp [maxEntry] at h

theorem maxEntry_mem {b : List (Nat × AdsList)} {p : Nat × AdsList}
    (h : maxEntry b = some p) : p ∈ b := by
  induction b generalizing p with
  | nil => simp [maxEntry] at h
  | cons hd tl ih =>
    simp only [maxEntry, Option.some.injEq] at h
    cases htl : maxEntry tl with
    | none =>
      rw [htl] at h
      exact h ▸ List.mem_cons_self _ _
    | some q =>
      rw [htl] at h
      have h2 : (if hd.1 < q.1 then q else hd) = p := h
      by_cases hlt : hd.1 < q.1
      · rw [if_pos hlt] at h2
        exact List.mem_cons_of_mem _ (h2 ▸ ih htl)
      · rw [if_neg hlt] at h2
        exact h2 ▸ List.mem_cons_self _ _

theorem maxEntry_ge {b : List (Nat × AdsList)} {p : Nat × AdsList}
    (h : maxEntry b = some p) : ∀ q ∈ b, q.1 ≤ p.1 := by
  induction b generalizing p with
  | nil => simp [maxEntry] at h
  | cons hd tl ih =>
    intro q hq
    simp only [maxEntry, Option.some.injEq] at h
    cases htl : maxEntry tl with
    | none =>
      rw [htl] at h
      rcases List.mem_cons.mp hq with rfl | hq'
      · exact h ▸ le_refl _
      · exact absurd (maxEntry_eq_none htl ▸ hq') (List.not_mem_nil q)
    | some m =>
      rw [htl] at h
      have h2 : (if hd.1 < m.1 then m else hd) = p := h
      by_cases hlt : hd.1 < m.1
      · rw [if_pos hlt] at h2
        rcases List.mem_cons.mp hq with rfl | hq'
        · exact h2 ▸ le_of_lt hlt
        · exact h2 ▸ ih htl q hq'
      · rw [if_neg hlt] at h2
        rcases List.mem_cons.mp hq with rfl | hq'
        · exact h2 ▸ le_refl _
        · exact h2 ▸ le_trans (ih htl q hq') (not_lt.mp hlt)

theorem maxEntry_isSome {b : List (Nat × AdsList)} (h : b ≠ []) :
    ∃ p, maxEntry b = some p := by
  cases b with
  | nil => exact absurd rfl h
  | cons hd tl => exact ⟨_, rfl⟩

/-! ## Collection-loop lemmas -/

/-- Folding a list of arrived messages into the buffer. -/
def insertAll (buf : List (Nat × AdsList)) : List AdsList → List (Nat × AdsList)
  | [] => buf
  | a :: rest => insertAll (insertBuf buf a.version a) rest

theorem collectLoop_eq_insertAll (timeoutMs : Nat) (events : List ReadEvent) :
    ∀ now buf, collectLoop timeoutMs now buf events =
      insertAll buf (collectedMsgs timeoutMs now events) := by
  induction events with
  | nil => intro now buf; rfl
  | cons e rest ih =>
    intro now buf
    obtain ⟨t, m⟩ := e
    by_cases h : timeoutMs ≤ now
    · simp [collectLoop, collectedMsgs, h, insertAll]
    · cases m with
      | none => simp [collectLoop, collectedMsgs, h, insertAll]
      | some a => simp [collectLoop, collectedMsgs, h, insertAll, ih]

theorem insertAll_mem {msgs : List AdsList} :
    ∀ {buf : List (Nat × AdsList)} {p : Nat × AdsList}, p ∈ insertAll buf msgs →
      p ∈ buf ∨ ∃ a ∈ msgs, p = (a.version, a) := by
  induction msgs with
  | nil =>
    intro buf p h
    exact Or.inl h
  | cons a rest ih =>
    intro buf p h
    rcases ih h with h' | ⟨b, hb, rfl⟩
    · rcases insertBuf_mem h' with h'' | rfl
      · exact Or.inl h''
      · exact Or.inr ⟨a, List.mem_cons_self _ _, rfl⟩
    · exact Or.inr ⟨b, List.mem_cons_of_mem _ hb, rfl⟩

/-! ## Claim theorems: client collector -/

/-- **C1**: whenever collection stops (deadline check fired or
end-of-send was read) with a non-empty buffer, the selected result is
the buffered entry with the maximum version key — not the
most-recently-arrived one — its payload is one of the messages the loop
read before stopping (so a message arriving strictly after the stop is
never selected), and every buffered version is ≤ the selected one; in
particular an out-of-order trace delivering version 2 before version 1
still selects version 2 (see the witness). -/
theorem collector_selects_max_version (timeoutMs : Nat) (events : List ReadEvent)
    (hne : collectLoop timeoutMs 0 [] events ≠ []) :
    ∃ p : Nat × AdsList,
      maxEntry (collectLoop timeoutMs 0 [] events) = some p ∧
      receiveAdsListWithTimeout timeoutMs events = p.2 ∧
      p.2 ∈ collectedMsgs timeoutMs 0 events ∧
      p.1 = p.2.version ∧
      ∀ q ∈ collectLoop timeoutMs 0 [] events, q.1 ≤ p.1 := by
  obtain ⟨p, hp⟩ := maxEntry_isSome hne
  have hm := maxEntry_mem hp
  rw [collectLoop_eq_insertAll] at hm
  rcases insertAll_mem hm with h | ⟨a, ha, hpa⟩
  · exact absurd h (List.not_mem_nil p)
  · subst hpa
    exact ⟨(a.version, a), hp, by simp [receiveAdsListWithTimeout, hp], ha, rfl,
      maxEntry_ge hp⟩

/-- Out-of-order run for the C1 witness: version 2 arrives at 5 ms,
version 1 at 10 ms, end-of-send at 12 ms, deadline 100 ms. -/
def eventsOutOfOrder : List ReadEvent :=
  [⟨5, some ⟨2, []⟩⟩, ⟨10, some ⟨1, []⟩⟩, ⟨12, none⟩]

/-- Witness for C1: on the out-of-order trace the buffer is non-empty,
the theorem applies, and the selected result is version 2 even though
version 1 arrived last. -/
theorem collector_selects_max_version_witness :
    (∃ p : Nat × AdsList,
      maxEntry (collectLoop 100 0 [] eventsOutOfOrder) = some p ∧
      receiveAdsListWithTimeout 100 eventsOutOfOrder = p.2 ∧
      p.2 ∈ collectedMsgs 100 0 eventsOutOfOrder ∧
      p.1 = p.2.version ∧
      ∀ q ∈ collectLoop 100 0 [] eventsOutOfOrder, q.1 ≤ p.1) ∧
    receiveAdsListWithTimeout 100 eventsOutOfOrder = ⟨2, []⟩ :=
  ⟨collector_selects_max_version 100 eventsOutOfOrder (by decide), by decide⟩

/-- **C3**: if the buffer is empty when collection stops, the collector
returns the `AdsList()` sentinel — version 0, no items — as an ordinary
result value. -/
theorem empty_buffer_returns_empty_result (timeoutMs : Nat) (events : List ReadEvent)
    (h : collectLoop timeoutMs 0 [] events = []) :
    receiveAdsListWithTimeout timeoutMs events = emptyResult ∧
    emptyResult.version = 0 ∧ emptyResult.ads = [] :=
  ⟨by simp [receiveAdsListWithTimeout, h, maxEntry], rfl, rfl⟩

/-- Witness for C3: the stream ends at 5 ms with nothing received under
a 30 ms deadline; the sentinel is returned. -/
theorem empty_buffer_returns_empty_result_witness :
    receiveAdsListWithTimeout 30 [⟨5, none⟩] = emptyResult ∧
    emptyResult.version = 0 ∧ emptyResult.ads = [] :=
  empty_buffer_returns_empty_result 30 [⟨5, none⟩] (by decide)

/-- **C8**: inserting the same `(version, AdsList)` pair twice leaves
the buffer exactly as inserting it once, and after an insert the key
maps to the inserted value (last write wins). -/
theorem buffer_insert_idempotent_overwrite (b : List (Nat × AdsList)) (v : Nat)
    (a : AdsList) :
    insertBuf (insertBuf b v a) v a = insertBuf b v a ∧
    lookupBuf (insertBuf b v a) v = some a :=
  ⟨insertBuf_idem b v a, insertBuf_lookup b v a⟩

/-! ## Generator lemmas -/

theorem genAdsAux_length (hasher : String → Nat) (tw : Nat → Nat → Nat)
    (ctx : Context) (version : Nat) :
    ∀ g i k, (genAdsAux hasher tw ctx version g i k).length = k := by
  intro g i k
  induction k generalizing g i with
  | zero => rfl
  | succ k ih => simp [genAdsAux, ih]

theorem genAdsAux_score_bounds (hasher : String → Nat) (tw : Nat → Nat → Nat)
    (ctx : Context) (version : Nat) :
    ∀ g i k ad, ad ∈ genAdsAux hasher tw ctx version g i k →
      0 ≤ ad.score ∧ ad.score ≤ 1 := by
  intro g i k
  induction k generalizing g i with
  | zero => intro ad h; simp [genAdsAux] at h
  | succ k ih =>
    intro ad h
    simp only [genAdsAux, List.mem_cons] at h
    rcases h with rfl | h
    · exact ⟨le_max_left 0 _, max_le zero_le_one (min_le_left _ _)⟩
    · exact ih _ _ ad h

theorem genAdsAux_map_asin (hasher : String → Nat) (tw : Nat → Nat → Nat)
    (q a u u' : String) (version : Nat) :
    ∀ g i k, (genAdsAux hasher tw ⟨q, a, u⟩ version g i k).map Ad.asinId =
      (genAdsAux hasher tw ⟨q, a, u'⟩ version g i k).map Ad.asinId := by
  intro g i k
  induction k generalizing g i with
  | zero => rfl
  | succ k ih => simp [genAdsAux, ih]

theorem genAdsAux_map_adId (hasher : String → Nat) (tw : Nat → Nat → Nat)
    (q a u u' : String) (version : Nat) :
    ∀ g i k, (genAdsAux hasher tw ⟨q, a, u⟩ version g i k).map Ad.adId =
      (genAdsAux hasher tw ⟨q, a, u'⟩ version g i k).map Ad.adId := by
  intro g i k
  induction k generalizing g i with
  | zero => rfl
  | succ k ih => simp [genAdsAux, ih]

/-! ## Claim theorems: RankingEngine (`AdGenerator`) -/

/-- **C5**: `AdGenerator::generateAds` is deterministic — identical
`(query, asinId, understanding, version)` inputs give identical item
count, item identifiers, result identifiers, and scores.  The engine is
re-seeded from the inputs on every call, so two calls replay the same
draw stream. -/
theorem generateAds_deterministic (hasher : String → Nat) (tw : Nat → Nat → Nat)
    (c c' : Context) (v v' : Nat) (hq : c.query = c'.query)
    (ha : c.asinId = c'.asinId) (hu : c.understanding = c'.understanding)
    (hv : v = v') :
    (generateAds hasher tw c v).ads.length = (generateAds hasher tw c' v').ads.length ∧
    (generateAds hasher tw c v).ads.map Ad.asinId =
      (generateAds hasher tw c' v').ads.map Ad.asinId ∧
    (generateAds hasher tw c v).ads.map Ad.adId =
      (generateAds hasher tw c' v').ads.map Ad.adId ∧
    (generateAds hasher tw c v).ads.map Ad.score =
      (generateAds hasher tw c' v').ads.map Ad.score := by
  obtain ⟨q, a, u⟩ := c
  obtain ⟨q', a', u'⟩ := c'
  simp only at hq ha hu
  cases hq; cases ha; cases hu; cases hv
  exact ⟨rfl, rfl, rfl, rfl⟩

/-- Witness for C5: two calls at the same concrete input agree. -/
theorem generateAds_deterministic_witness :
    (generateAds String.length (fun _ _ => 500) ⟨"a", "b", "c"⟩ 2).ads.length =
      (generateAds String.length (fun _ _ => 500) ⟨"a", "b", "c"⟩ 2).ads.length ∧
    (generateAds String.length (fun _ _ => 500) ⟨"a", "b", "c"⟩ 2).ads.map Ad.asinId =
      (generateAds String.length (fun _ _ => 500) ⟨"a", "b", "c"⟩ 2).ads.map Ad.asinId ∧
    (generateAds String.length (fun _ _ => 500) ⟨"a", "b", "c"⟩ 2).ads.map Ad.adId =
      (generateAds String.length (fun _ _ => 500) ⟨"a", "b", "c"⟩ 2).ads.map Ad.adId ∧
    (generateAds String.length (fun _ _ => 500) ⟨"a", "b", "c"⟩ 2).ads.map Ad.score =
      (generateAds String.length (fun _ _ => 500) ⟨"a", "b", "c"⟩ 2).ads.map Ad.score :=
  generateAds_deterministic String.length (fun _ _ => 500) ⟨"a", "b", "c"⟩
    ⟨"a", "b", "c"⟩ 2 2 rfl rfl rfl rfl

/-- **C6**: every score produced by `AdGenerator::generateAds` lies in
`[0, 1]`, for arbitrary inputs (including empty understanding), because
each per-ad score is clamped with `max(0.0, min(1.0, score))`. -/
theorem scores_in_unit_interval (hasher : String → Nat) (tw : Nat → Nat → Nat)
    (ctx : Context) (version : Nat) (ad : Ad)
    (h : ad ∈ (generateAds hasher tw ctx version).ads) :
    0 ≤ ad.score ∧ ad.score ≤ 1 :=
  genAdsAux_score_bounds hasher tw ctx version _ 0 _ ad h

/-- The concrete run used by the C6 witness produces a non-empty list
(its length is `5 + 500 % 6 = 7`). -/
theorem c6ads_ne_nil :
    (generateAds String.length (fun _ _ => 500) ⟨"q", "b", ""⟩ 1).ads ≠ [] := by
  have hlen : (generateAds String.length (fun _ _ => 500) ⟨"q", "b", ""⟩ 1).ads.length = 7 := by
    simp [generateAds, intDist, rngNext, genAdsAux_length]
  intro hnil
  rw [hnil] at hlen
  simp at hlen

/-- Witness for C6: the first ad of a concrete run (empty
understanding) has a score in `[0, 1]`. -/
theorem scores_in_unit_interval_witness :
    0 ≤ ((generateAds String.length (fun _ _ => 500) ⟨"q", "b", ""⟩ 1).ads.head
        c6ads_ne_nil).score ∧
    ((generateAds String.length (fun _ _ => 500) ⟨"q", "b", ""⟩ 1).ads.head
        c6ads_ne_nil).score ≤ 1 :=
  scores_in_unit_interval String.length (fun _ _ => 500) ⟨"q", "b", ""⟩ 1 _
    (List.head_mem c6ads_ne_nil)

/-- **C7**: every produced `AdsList` has between 5 and 10 items
inclusive: the count is one `uniform_int_distribution<>(5, 10)` draw and
the loop emits exactly that many ads. -/
theorem item_count_in_range (hasher : String → Nat) (tw : Nat → Nat → Nat)
    (ctx : Context) (version : Nat) :
    5 ≤ (generateAds hasher tw ctx version).ads.length ∧
    (generateAds hasher tw ctx version).ads.length ≤ 10 := by
  have hlen : (generateAds hasher tw ctx version).ads.length =
      5 + tw (hasher (ctx.query ++ ctx.asinId ++ toString version)) 0 % 6 := by
    simp [generateAds, intDist, rngNext, genAdsAux_length]
  rw [hlen]
  omega

/-- **C10**: the structure of a generated `AdsList` does not depend on
`understanding`: for fixed `(query, asinId, version)` the item count,
the item identifiers (`asin_id`) and the result identifiers (`ad_id`)
are identical for any two understanding values — the seed, the count
draw, the identifier derivations and the engine positions use only the
query, the asin id, the version and the item index, so only scores can
differ. -/
theorem structure_indep_of_understanding (hasher : String → Nat)
    (tw : Nat → Nat → Nat) (q a u u' : String) (version : Nat) :
    (generateAds hasher tw ⟨q, a, u⟩ version).ads.length =
      (generateAds hasher tw ⟨q, a, u'⟩ version).ads.length ∧
    (generateAds hasher tw ⟨q, a, u⟩ version).ads.map Ad.asinId =
      (generateAds hasher tw ⟨q, a, u'⟩ version).ads.map Ad.asinId ∧
    (generateAds hasher tw ⟨q, a, u⟩ version).ads.map Ad.adId =
      (generateAds hasher tw ⟨q, a, u'⟩ version).ads.map Ad.adId := by
  refine ⟨?_, ?_, ?_⟩
  · simp [generateAds, genAdsAux_length]
  · exact genAdsAux_map_asin hasher tw q a u u' version _ 0 _
  · exact genAdsAux_map_adId hasher tw q a u u' version _ 0 _

/-! ## Claim theorems: server session -/

/-- **C9**: within one session the versions sent, in send order, form a
prefix of `(1, 2, 3)`: no Contexts → nothing sent; one Context →
version 1 only; two or more Contexts → versions 1, 2 synchronously in
that order and the deferred version 3 strictly after (it sleeps 50 ms
after being spawned, which happens after the version-2 write).  No other
version number is ever emitted. -/
theorem server_version_sequence (hasher : String → Nat) (tw : Nat → Nat → Nat)
    (writeOk : Nat → Bool) (received : List Context) :
    ∃ k, sentVersions (serverGetAds hasher tw writeOk received) = List.take k [1, 2, 3] := by
  match received with
  | [] => exact ⟨0, rfl⟩
  | [c1] => exact ⟨1, rfl⟩
  | c1 :: c2 :: rest => exact ⟨3, rfl⟩

/-- **C4** (amended): on the client side a failed write aborts the
remaining sends in that direction, whichever write fails — if the first
Context write fails, the second Context is never handed to the stream
and `WritesDone` is not called; if the second Context write fails,
`WritesDone` is not called either; in every failing run the success-path
end-of-send signal is skipped.  On the server side, however,
`AdsServiceImpl::GetAds` discards every `stream->Write` result, so the
session's sends do not depend on write outcomes at all. -/
theorem write_failure_client_aborts (writeOk : Nat → Bool)
    (query asinId understanding : String)
    (h : writeOk 0 = false ∨ writeOk 1 = false) :
    (writeOk 0 = false →
      sendContextMessages writeOk query asinId understanding =
        ⟨[⟨query, asinId, ""⟩], false⟩) ∧
    (writeOk 0 = true → writeOk 1 = false →
      sendContextMessages writeOk query asinId understanding =
        ⟨[⟨query, asinId, ""⟩, ⟨query, asinId, understanding⟩], false⟩) ∧
    (sendContextMessages writeOk query asinId understanding).signaledDone = false ∧
    ∀ (hasher : String → Nat) (tw : Nat → Nat → Nat) (w w' : Nat → Bool)
      (received : List Context),
      serverGetAds hasher tw w received = serverGetAds hasher tw w' received := by
  refine ⟨?_, ?_, ?_, ?_⟩
  · intro h0
    simp [sendContextMessages, h0]
  · intro h0 h1
    simp [sendContextMessages, h0, h1]
  · rcases h with h0 | h1
    · simp [sendContextMessages, h0]
    · by_cases h0 : writeOk 0 <;> simp [sendContextMessages, h0, h1]
  · intro hasher tw w w' received
    rfl

/-- Witness for the amended C4, exercising the second-write-failure
case: the first write succeeds, the second fails, both Contexts were
attempted but `WritesDone` never runs. -/
theorem write_failure_client_aborts_witness :
    ((fun n => n == 0) 0 = false →
      sendContextMessages (fun n => n == 0) "q" "b" "u" =
        ⟨[⟨"q", "b", ""⟩], false⟩) ∧
    ((fun n => n == 0) 0 = true → (fun n => n == 0) 1 = false →
      sendContextMessages (fun n => n == 0) "q" "b" "u" =
        ⟨[⟨"q", "b", ""⟩, ⟨"q", "b", "u"⟩], false⟩) ∧
    (sendContextMessages (fun n => n == 0) "q" "b" "u").signaledDone = false ∧
    ∀ (hasher : String → Nat) (tw : Nat → Nat → Nat) (w w' : Nat → Bool)
      (received : List Context),
      serverGetAds hasher tw w received = serverGetAds hasher tw w' received :=
  write_failure_client_aborts (fun n => n == 0) "q" "b" "u" (Or.inr rfl)

/-- Counterexample to C4 as stated: in a run where every server-side
`stream->Write` fails (`writeOk` constantly `false`, so in particular
the version-1 write failed), the server still executes the version-2
write and still schedules the deferred version-3 write — the remaining
sends of the session are not aborted, because the source discards the
results of `stream->Write` (ads_service_impl.cpp:56, 88, 129). -/
theorem server_write_failure_not_aborted_cex :
    ((serverGetAds String.length (fun _ _ => 500) (fun _ => false)
        [⟨"q", "b", ""⟩, ⟨"q", "b", "u"⟩]).sends.map Prod.fst = [1, 2]) ∧
    (serverGetAds String.length (fun _ _ => 500) (fun _ => false)
        [⟨"q", "b", ""⟩, ⟨"q", "b", "u"⟩]).deferred ≠ none := by
  exact ⟨rfl, by simp [serverGetAds]⟩

/-! ## C2: where the empty understanding for version 1 comes from -/

theorem genAdsAux_const_score_map (hasher : String → Nat) (tw : Nat → Nat → Nat)
    (c : Nat) (hc : ∀ s i, tw s i = c) (ctx : Context) (version : Nat) :
    ∀ g i k, (genAdsAux hasher tw ctx version g i k).map Ad.score =
      List.replicate k (max 0 (min 1
        (calculateScore hasher ctx.query ctx.asinId ctx.understanding version +
          (-1/10 + (1/10 - -1/10) * ((c % 1000 : Nat) : ℚ) / 1000)))) := by
  intro g i k
  induction k generalizing g i with
  | zero => rfl
  | succ k ih =>
    simp only [genAdsAux, realDist, rngNext, hc, List.map_cons, List.replicate_succ, ih]

theorem replicate_head_eq {α : Type} {a b : α} {n : Nat}
    (h : List.replicate (n + 1) a = List.replicate (n + 1) b) : a = b := by
  simp [List.replicate_succ] at h
  exact h.1

/-- **C2** (amended): the first Context the client writes has empty
`understanding` by construction, regardless of the caller's
`understanding` argument; the server generates version 1 by applying the
RankingEngine to the *received* first Context unchanged
(ads_service_impl.cpp:45 passes `client_context` as-is), so version 1 is
generated from an empty understanding exactly because the received first
Context carries one — not because the handler forces the field empty. -/
theorem first_context_empty_drives_v1 (writeOk : Nat → Bool)
    (query asinId understanding : String) (hasher : String → Nat)
    (tw : Nat → Nat → Nat) (w : Nat → Bool) (c1 : Context) (rest : List Context)
    (hc : c1 = ⟨query, asinId, ""⟩) :
    (sendContextMessages writeOk query asinId understanding).attempts.head? =
      some ⟨query, asinId, ""⟩ ∧
    (serverGetAds hasher tw w (c1 :: rest)).sends.head? =
      some (1, generateAds hasher tw c1 1) ∧
    (serverGetAds hasher tw w (c1 :: rest)).sends.head? =
      some (1, generateAds hasher tw ⟨query, asinId, ""⟩ 1) := by
  subst hc
  refine ⟨?_, ?_, ?_⟩
  · by_cases h0 : writeOk 0 <;> by_cases h1 : writeOk 1 <;>
      simp [sendContextMessages, h0, h1]
  · cases rest <;> rfl
  · cases rest <;> rfl

/-- Witness for the amended C2 at a concrete run. -/
theorem first_context_empty_drives_v1_witness :
    (sendContextMessages (fun _ => true) "q" "b" "u").attempts.head? =
      some ⟨"q", "b", ""⟩ ∧
    (serverGetAds String.length (fun _ _ => 500) (fun _ => true)
        [(⟨"q", "b", ""⟩ : Context)]).sends.head? =
      some (1, generateAds String.length (fun _ _ => 500) ⟨"q", "b", ""⟩ 1) ∧
    (serverGetAds String.length (fun _ _ => 500) (fun _ => true)
        [(⟨"q", "b", ""⟩ : Context)]).sends.head? =
      some (1, generateAds String.length (fun _ _ => 500) ⟨"q", "b", ""⟩ 1) :=
  first_context_empty_drives_v1 (fun _ => true) "q" "b" "u" String.length
    (fun _ _ => 500) (fun _ => true) ⟨"q", "b", ""⟩ [] rfl

/-- Counterexample to C2 as stated: the server does *not* force the
understanding field empty for version 1.  When the first received
Context carries `understanding = "x"` (which a non-conforming client
could send), the version-1 `AdsList` the handler sends differs — already
in its scores — from what the RankingEngine produces for the same
Context with understanding forced empty, under the concrete model
instantiation `hasher = String.length`, engine stream constantly 500. -/
theorem server_v1_not_forced_empty_cex :
    (serverGetAds String.length (fun _ _ => 500) (fun _ => true)
        [⟨"", "", "x"⟩]).sends.map (fun p => p.2.ads.map Ad.score) ≠
      [(generateAds String.length (fun _ _ => 500) ⟨"", "", ""⟩ 1).ads.map Ad.score] := by
  intro hEq
  have h1 : (generateAds String.length (fun _ _ => 500) ⟨"", "", "x"⟩ 1).ads.map Ad.score =
      (generateAds String.length (fun _ _ => 500) ⟨"", "", ""⟩ 1).ads.map Ad.score := by
    simpa [serverGetAds] using hEq
  have hx : (generateAds String.length (fun _ _ => 500) ⟨"", "", "x"⟩ 1).ads.map Ad.score =
      List.replicate (6 + 1) (max 0 (min 1
        (calculateScore String.length "" "" "x" 1 +
          (-1/10 + (1/10 - -1/10) * ((500 % 1000 : Nat) : ℚ) / 1000)))) :=
    genAdsAux_const_score_map String.length (fun _ _ => 500) 500 (fun _ _ => rfl)
      ⟨"", "", "x"⟩ 1 _ 0 _
  have he : (generateAds String.length (fun _ _ => 500) ⟨"", "", ""⟩ 1).ads.map Ad.score =
      List.replicate (6 + 1) (max 0 (min 1
        (calculateScore String.length "" "" "" 1 +
          (-1/10 + (1/10 - -1/10) * ((500 % 1000 : Nat) : ℚ) / 1000)))) :=
    genAdsAux_const_score_map String.length (fun _ _ => 500) 500 (fun _ _ => rfl)
      ⟨"", "", ""⟩ 1 _ 0 _
  rw [hx, he] at h1
  have h2 := replicate_head_eq h1
  have hax : String.length ("" ++ "" : String) = 0 := rfl
  have hbx : String.length "x" = 1 := rfl
  simp only [calculateScore, hax, hbx] at h2
  rw [if_pos trivial, if_neg (by decide : ¬ ("x" = ""))] at h2
  norm_num [inf_eq_min, sup_eq_max, min_def, max_def] at h2
